import Mathlib

/-
Verification of the cliparr catalog-synchronisation service.

The repository keeps three rewrites of the same application:
  * the root version        (src/app.py, src/db/manager.py)
  * cliparr-old             (src/cliparr-old/...)
  * cliparr-next            (src/cliparr-next/backend/app/...)

The relational state is embedded as explicit lists of rows.  SQLite
semantics that matter here are modelled faithfully:
  * INSERT OR REPLACE deletes every row conflicting on a UNIQUE column
    and inserts a fresh row; with an AUTOINCREMENT primary key the new
    rowid is one past the largest id ever issued (tracked by a sequence
    counter), and the cursor lastrowid is that new id (never 0).
  * INSERT OR IGNORE inserts unless a UNIQUE constraint is violated;
    with no applicable constraint it always inserts.
  * DELETE ... WHERE p is List.filter by the negation of p.
-/

namespace Cliparr

/-- A row of the shows table (schema: init_db.py creates
id AUTOINCREMENT, sonarr_id UNIQUE, title, overview, path). -/
structure ShowRow where
  id : Nat
  sonarr_id : Nat
  title : String
  overview : String
  path : String
deriving DecidableEq, Repr

/-- A row of the seasons table (id, show_id, season_number).  The
cliparr-next schema declares UNIQUE(show_id, season_number); the legacy
schema in src/app.py initialize_database declares no unique constraint. -/
structure SeasonRow where
  id : Nat
  show_id : Nat
  season_number : Nat
deriving DecidableEq, Repr

/-- A row of the episodes table.  The cliparr-next schema declares
sonarr_episode_id UNIQUE and UNIQUE(season_id, episode_number); the
legacy schema in src/app.py declares neither. -/
structure EpisodeRow where
  id : Nat
  season_id : Nat
  episode_number : Nat
  title : String
  sonarr_episode_id : Nat
deriving DecidableEq, Repr

/-- A row of the episode_files table. -/
structure EpisodeFileRow where
  id : Nat
  episode_id : Nat
  file_path : String
  size : Nat
  quality : String
deriving DecidableEq, Repr

/-- The relational database file: the four catalog tables plus the
AUTOINCREMENT sequence counters (sqlite_sequence) for each table. -/
structure Db where
  shows : List ShowRow
  seasons : List SeasonRow
  episodes : List EpisodeRow
  episode_files : List EpisodeFileRow
  showSeq : Nat
  seasonSeq : Nat
  episodeSeq : Nat
deriving DecidableEq, Repr

/-- A show record as returned by the remote catalog service
(fields read by insert_show: id, title, overview, path). -/
structure RemoteShow where
  id : Nat
  title : String
  overview : String
  path : String
deriving DecidableEq, Repr

/-- An episode record as returned by the remote catalog service
(fields read by the import loop: id, seasonNumber, episodeNumber, title). -/
structure RemoteEpisode where
  id : Nat
  seasonNumber : Nat
  episodeNumber : Nat
  title : String
deriving DecidableEq, Repr

/-- The response a handler hands to the web framework: HTTP status plus
the error field of the JSON body (none when the body reports success). -/
structure HttpResponse where
  status : Nat
  error : Option String
deriving DecidableEq, Repr

namespace NextDb

/-- insert_show from db/manager.py run against the cliparr-next schema
(init_db.py): INSERT OR REPLACE keyed by the UNIQUE sonarr_id column
deletes any row with the same sonarr_id and inserts a fresh row whose
AUTOINCREMENT id is showSeq + 1.  The source then checks
cur.lastrowid == 0 to fetch the pre-existing id, but lastrowid is the
fresh rowid and never 0, so the function returns the fresh id. -/
def insert_show (db : Db) (s : RemoteShow) : Nat × Db :=
  let keep := db.shows.filter (fun r => !(r.sonarr_id == s.id))
  let newId := db.showSeq + 1
  (newId,
   { db with
       shows := keep ++ [⟨newId, s.id, s.title, s.overview, s.path⟩],
       showSeq := newId })

/-- insert_season from db/manager.py against the cliparr-next schema:
INSERT OR IGNORE is a no-op exactly when a row with the same
(show_id, season_number) exists (UNIQUE constraint); the following
SELECT returns the id of the first matching row. -/
def insert_season (db : Db) (showId seasonNumber : Nat) : Nat × Db :=
  let conflict := db.seasons.any
    (fun s => s.show_id == showId && s.season_number == seasonNumber)
  let db1 :=
    if conflict then db
    else
      { db with
          seasons := db.seasons ++ [⟨db.seasonSeq + 1, showId, seasonNumber⟩],
          seasonSeq := db.seasonSeq + 1 }
  let sid :=
    match db1.seasons.find?
      (fun s => s.show_id == showId && s.season_number == seasonNumber) with
    | some s => s.id
    | none => 0
  (sid, db1)

/-- A stored episode row conflicts with the episode being inserted when
it shares the UNIQUE sonarr_episode_id or the UNIQUE
(season_id, episode_number) pair of the cliparr-next schema. -/
def episodeConflict (seasonId : Nat) (ep : RemoteEpisode) (e : EpisodeRow) : Bool :=
  e.sonarr_episode_id == ep.id ||
    (e.season_id == seasonId && e.episode_number == ep.episodeNumber)

/-- insert_episode from db/manager.py against the cliparr-next schema:
INSERT OR REPLACE deletes every conflicting row and inserts a fresh row
with AUTOINCREMENT id episodeSeq + 1; as with insert_show the
lastrowid == 0 fallback never fires. -/
def insert_episode (db : Db) (seasonId : Nat) (ep : RemoteEpisode) : Nat × Db :=
  let newId := db.episodeSeq + 1
  (newId,
   { db with
       episodes :=
         db.episodes.filter (fun e => !(episodeConflict seasonId ep e)) ++
           [⟨newId, seasonId, ep.episodeNumber, ep.title, ep.id⟩],
       episodeSeq := newId })

end NextDb

namespace LegacyDb

/-- insert_show from src/db/manager.py against the legacy schema of
src/app.py initialize_database: the shows table keeps sonarr_id UNIQUE,
so INSERT OR REPLACE deletes any row with that sonarr_id, but the id
column is a plain INTEGER PRIMARY KEY without AUTOINCREMENT, so the
fresh rowid is one past the largest rowid still in the table. -/
def insert_show (db : Db) (s : RemoteShow) : Nat × Db :=
  let keep := db.shows.filter (fun r => !(r.sonarr_id == s.id))
  let newId := (keep.map (fun r => r.id)).foldl max 0 + 1
  (newId,
   { db with shows := keep ++ [⟨newId, s.id, s.title, s.overview, s.path⟩] })

/-- insert_season from src/db/manager.py against the legacy schema: the
seasons table has no UNIQUE constraint, so INSERT OR IGNORE has nothing
to ignore and always inserts a row; the following SELECT returns the id
of the first row (lowest rowid) with the given (show_id, season_number). -/
def insert_season (db : Db) (showId seasonNumber : Nat) : Nat × Db :=
  let newId := (db.seasons.map (fun s => s.id)).foldl max 0 + 1
  let db1 := { db with seasons := db.seasons ++ [⟨newId, showId, seasonNumber⟩] }
  let sid :=
    match db1.seasons.find?
      (fun s => s.show_id == showId && s.season_number == seasonNumber) with
    | some s => s.id
    | none => 0
  (sid, db1)

/-- insert_episode from src/db/manager.py against the legacy schema:
the episodes table declares no UNIQUE column, so INSERT OR REPLACE can
only conflict on the unspecified primary key and always plain-inserts. -/
def insert_episode (db : Db) (seasonId : Nat) (ep : RemoteEpisode) : Nat × Db :=
  let newId := (db.episodes.map (fun e => e.id)).foldl max 0 + 1
  (newId,
   { db with
       episodes :=
         db.episodes ++ [⟨newId, seasonId, ep.episodeNumber, ep.title, ep.id⟩] })

end LegacyDb

/-- The per-show local episode-id query of the import handlers:
SELECT e.sonarr_episode_id FROM episodes e JOIN seasons s
ON e.season_id = s.id WHERE s.show_id = localShowId. -/
def localEpisodeIds (db : Db) (localShowId : Nat) : List Nat :=
  (db.episodes.filter
      (fun e => db.seasons.any
        (fun s => s.id == e.season_id && s.show_id == localShowId))).map
    (fun e => e.sonarr_episode_id)

/-- The set-difference step of the import handlers: remote episodes
whose id is not among the locally stored sonarr episode ids. -/
def missingEpisodes (db : Db) (localShowId : Nat)
    (episodes : List RemoteEpisode) : List RemoteEpisode :=
  episodes.filter (fun ep => !((localEpisodeIds db localShowId).contains ep.id))

namespace NextDb

/-- One iteration of the inner import loop of
cliparr-next/backend/app/main.py import_selected_shows: upsert the
season by number, then insert the episode into that season. -/
def importEpisodeStep (localShowId : Nat) (db : Db) (ep : RemoteEpisode) : Db :=
  let r := insert_season db localShowId ep.seasonNumber
  (insert_episode r.2 r.1 ep).2

/-- The body of the per-show loop of import_selected_shows
(main.py lines 462-483): look the show up by sonarr_id; if present,
read its local episode ids, otherwise insert the show with an empty
local set; then insert season and episode for each missing episode. -/
def import_selected_show (db : Db) (rshow : RemoteShow)
    (episodes : List RemoteEpisode) : Db :=
  match db.shows.find? (fun r => r.sonarr_id == rshow.id) with
  | some row =>
      (missingEpisodes db row.id episodes).foldl (importEpisodeStep row.id) db
  | none =>
      let r := insert_show db rshow
      episodes.foldl (importEpisodeStep r.1) r.2

end NextDb

namespace LegacyDb

/-- One iteration of the inner import loop of src/app.py
import_selected_shows, with the legacy insert primitives. -/
def importEpisodeStep (localShowId : Nat) (db : Db) (ep : RemoteEpisode) : Db :=
  let r := insert_season db localShowId ep.seasonNumber
  (insert_episode r.2 r.1 ep).2

/-- The body of the per-show loop of the src/app.py import handler
(lines 474-498), with the legacy insert primitives. -/
def import_selected_show (db : Db) (rshow : RemoteShow)
    (episodes : List RemoteEpisode) : Db :=
  match db.shows.find? (fun r => r.sonarr_id == rshow.id) with
  | some row =>
      (missingEpisodes db row.id episodes).foldl (importEpisodeStep row.id) db
  | none =>
      let r := insert_show db rshow
      episodes.foldl (importEpisodeStep r.1) r.2

end LegacyDb

/-- The cascading bulk delete shared verbatim by src/app.py
delete_imported_shows and main.py delete_imported_shows: first collect
the episode ids of the selected shows, then delete episode_files for
those episodes, episodes whose season belongs to a selected show,
seasons of the selected shows, and finally the shows themselves. -/
def deleteShows (db : Db) (ids : List Nat) : Db :=
  let episodeIds :=
    (db.episodes.filter
        (fun e => db.seasons.any
          (fun s => s.id == e.season_id && ids.contains s.show_id))).map
      (fun e => e.id)
  { db with
      episode_files :=
        db.episode_files.filter (fun f => !(episodeIds.contains f.episode_id)),
      episodes :=
        db.episodes.filter
          (fun e => !(db.seasons.any
            (fun s => s.id == e.season_id && ids.contains s.show_id))),
      seasons := db.seasons.filter (fun s => !(ids.contains s.show_id)),
      shows := db.shows.filter (fun r => !(ids.contains r.id)) }

/-- A remote show together with its fetched episode list: the data
the import handler obtains from fetch_series_data and the per-show
fetch_json episode calls. -/
structure RemoteShowData where
  series : RemoteShow
  episodes : List RemoteEpisode
deriving DecidableEq, Repr

namespace NextDb

/-- The FastAPI POST /api/sonarr/import handler of main.py: an empty or
missing showIds list returns the plain error dict — which FastAPI sends
with its default status 200 — without touching the database; otherwise
every requested show present remotely is imported. -/
def import_selected_shows (body : Option (List Nat))
    (series : List RemoteShowData) (db : Db) : HttpResponse × Db :=
  let showIds := body.getD []
  if showIds.isEmpty then
    (⟨200, some "No show IDs provided"⟩, db)
  else
    let toImport := series.filter (fun sd => showIds.contains sd.series.id)
    (⟨200, none⟩,
     toImport.foldl (fun d sd => import_selected_show d sd.series sd.episodes) db)

/-- The FastAPI POST /api/imported-shows handler of main.py: an empty or
missing showIds list returns the plain error dict (status 200);
otherwise the cascading delete runs. -/
def delete_imported_shows (body : Option (List Nat)) (db : Db) :
    HttpResponse × Db :=
  let showIds := body.getD []
  if showIds.isEmpty then
    (⟨200, some "No show IDs provided"⟩, db)
  else
    (⟨200, none⟩, deleteShows db showIds)

end NextDb

namespace LegacyDb

/-- The Flask POST /api/sonarr/import handler of src/app.py: an empty or
missing showIds list returns the error body with status 400 and no
database write. -/
def import_selected_shows (body : Option (List Nat))
    (series : List RemoteShowData) (db : Db) : HttpResponse × Db :=
  let showIds := body.getD []
  if showIds.isEmpty then
    (⟨400, some "No show IDs provided"⟩, db)
  else
    let toImport := series.filter (fun sd => showIds.contains sd.series.id)
    (⟨200, none⟩,
     toImport.foldl (fun d sd => import_selected_show d sd.series sd.episodes) db)

/-- The Flask DELETE /api/imported-shows handler of src/app.py: an empty
or missing showIds list returns the error body with status 400 and no
database write. -/
def delete_imported_shows (body : Option (List Nat)) (db : Db) :
    HttpResponse × Db :=
  let showIds := body.getD []
  if showIds.isEmpty then
    (⟨400, some "No show IDs provided"⟩, db)
  else
    (⟨200, none⟩, deleteShows db showIds)

end LegacyDb

/-- The outcome of one HTTP GET against the remote catalog service:
either the request machinery raised (connection error, timeout), or a
response with a status code and a decoded JSON body arrived. -/
inductive HttpOutcome (α : Type) where
  | netErr (msg : String)
  | response (status : Nat) (body : α)
deriving DecidableEq, Repr

/-- The semantics of requests.get followed by response.raise_for_status:
a network-level failure has already raised, and raise_for_status raises
HTTPError exactly for the 4xx and 5xx status ranges. -/
def raise_for_status {α : Type} : HttpOutcome α → Except String α
  | .netErr msg => .error msg
  | .response status body =>
      if 400 ≤ status ∧ status < 600 then
        .error ("HTTP error " ++ toString status)
      else .ok body

namespace NextApi

/-- fetch_series_data from cliparr-next/backend/app/api/sonarr_api.py:
the except branch logs and re-raises, so every failure of the GET or of
raise_for_status propagates to the caller. -/
def fetch_series_data {α : Type} (o : HttpOutcome (List α)) :
    Except String (List α) :=
  match raise_for_status o with
  | .ok body => .ok body
  | .error e => .error e

/-- fetch_json from cliparr-next/backend/app/api/sonarr_api.py, used for
the per-show episode lists: the except branch re-raises as well. -/
def fetch_json {α : Type} (o : HttpOutcome (List α)) :
    Except String (List α) :=
  match raise_for_status o with
  | .ok body => .ok body
  | .error e => .error e

end NextApi

namespace LegacyApi

/-- fetch_series_data from src/cliparr-old/api/sonarr_client.py: the
except branch logs the error and returns the empty list. -/
def fetch_series_data {α : Type} (o : HttpOutcome (List α)) : List α :=
  match raise_for_status o with
  | .ok body => body
  | .error _ => []

/-- fetch_json from src/cliparr-old/api/sonarr_client.py: the except
branch logs the error and returns the empty list. -/
def fetch_json {α : Type} (o : HttpOutcome (List α)) : List α :=
  match raise_for_status o with
  | .ok body => body
  | .error _ => []

end LegacyApi

/-- A fetch attempt fails when the request machinery raised or the
response status is in the 4xx or 5xx range (the statuses for which
raise_for_status raises). -/
def FetchFails {α : Type} : HttpOutcome α → Prop
  | .netErr _ => True
  | .response status _ => 400 ≤ status ∧ status < 600

/-- The settings table: key TEXT PRIMARY KEY, value TEXT, kept in rowid
order. -/
abbrev SettingsStore := List (String × String)

namespace Settings

/-- set_import_mode from cliparr-next/backend/app/db/settings.py:
INSERT OR REPLACE keyed by the PRIMARY KEY column deletes any row with
key import_mode and appends the fresh row. -/
def set_import_mode (mode : String) (st : SettingsStore) : SettingsStore :=
  st.filter (fun kv => !(kv.1 == "import_mode")) ++ [("import_mode", mode)]

/-- get_import_mode from cliparr-next/backend/app/db/settings.py: a
storage error during the read is caught and mapped to none-the-string;
otherwise the first row with key import_mode is returned, or the string
none when no such row exists. -/
def get_import_mode (st : Except String SettingsStore) : String :=
  match st with
  | .error _ => "none"
  | .ok rows =>
      match rows.find? (fun kv => kv.1 == "import_mode") with
      | some kv => kv.2
      | none => "none"

end Settings

/-- Python str.lower as applied to the posted mode value: Char.toLower
mapped over the characters (String.toLower is this same map; the
character-level form lets concrete instances evaluate). -/
def lowerStr (s : String) : String := ⟨s.data.map Char.toLower⟩

namespace NextDb

/-- The POST /api/settings/import-mode handler of main.py: the posted
mode (defaulting to none) is lowercased, values outside auto, import and
none are answered with the Invalid mode error dict — sent by FastAPI
with its default status 200 — and only accepted values reach
set_import_mode.  The immediate-scan block guarded by the accepted modes
touches only the catalog tables, never the settings row. -/
def update_import_mode (body : Option String) (st : SettingsStore) :
    HttpResponse × SettingsStore :=
  let mode := lowerStr (body.getD "none")
  if mode == "auto" || mode == "import" || mode == "none" then
    (⟨200, none⟩, Settings.set_import_mode mode st)
  else
    (⟨200, some "Invalid mode"⟩, st)

end NextDb

/-- The outcome of one external tool invocation (subprocess.run): the
spawn itself may raise, otherwise a return code and the diagnostic
stderr text are available. -/
inductive ToolRun where
  | crash (msg : String)
  | exitWith (returncode : Int) (stderr : String)
deriving DecidableEq, Repr

/-- A row of the fingerprints table of
src/cliparr-old/media/audio_fingerprint.py, with its
UNIQUE(file_path, fingerprint_hash) pair; confidence is always written
as 1.0 and kept here as the unit weight 1. -/
structure FingerprintRow where
  id : Nat
  file_path : String
  fingerprint_hash : String
  start_time : Int
  end_time : Int
  type : String
  confidence : Nat
deriving DecidableEq, Repr

/-- The fingerprint store: rows plus the AUTOINCREMENT counter. -/
structure FpStore where
  rows : List FingerprintRow
  seq : Nat
deriving DecidableEq, Repr

/-- The value returned by AudioFingerprinter.scan_episode on success. -/
structure ScanResult where
  file_path : String
  duration : Int
  intro_fingerprint : Option String
  outro_fingerprint : Option String
deriving DecidableEq, Repr

namespace AudioFp

/-- AudioFingerprinter._generate_audio_fingerprint: a spawn failure is
caught and yields no digest, a nonzero return code yields no digest, and
otherwise the digest is the hash of the diagnostic stderr text.  The
hash itself (hashlib sha256 hexdigest) is an external primitive and is
passed in as a parameter. -/
def generate_audio_fingerprint (hash : String → String) : ToolRun → Option String
  | .crash _ => none
  | .exitWith returncode stderr =>
      if returncode ≠ 0 then none else some (hash stderr)

/-- INSERT OR IGNORE INTO fingerprints: the insert is dropped when a row
with the same (file_path, fingerprint_hash) already exists. -/
def insertFingerprint (st : FpStore) (filePath hashVal : String)
    (startTime endTime : Int) (kind : String) : FpStore :=
  if st.rows.any (fun r =>
      r.file_path == filePath && r.fingerprint_hash == hashVal) then st
  else
    { rows := st.rows ++
        [⟨st.seq + 1, filePath, hashVal, startTime, endTime, kind, 1⟩],
      seq := st.seq + 1 }

/-- AudioFingerprinter.scan_episode: when the duration probe fails the
whole call returns None; otherwise the head and tail segments are
digested independently (a failed segment contributes no digest), the
available digests are stored, and the call succeeds with the digests it
obtained.  durationProbe stands for the parsed ffprobe duration (none
when ffprobe or the JSON parse raised); introRun and outroRun are the
outcomes of the two segment invocations of the external tool. -/
def scan_episode (hash : String → String) (filePath : String)
    (durationProbe : Option Int) (introRun outroRun : ToolRun)
    (st : FpStore) : Option (ScanResult × FpStore) :=
  match durationProbe with
  | none => none
  | some duration =>
      let intro := generate_audio_fingerprint hash introRun
      let outro := generate_audio_fingerprint hash outroRun
      let st1 := match intro with
        | some h => insertFingerprint st filePath h 0 180 "intro"
        | none => st
      let st2 := match outro with
        | some h =>
            insertFingerprint st1 filePath h (duration - 180) duration "outro"
        | none => st1
      some (⟨filePath, duration, intro, outro⟩, st2)

end AudioFp

/-- Insertion of one element into a list sorted by le, keeping earlier
elements first on ties (a stable ORDER BY). -/
def sortInsert {α : Type} (le : α → α → Bool) (a : α) : List α → List α
  | [] => [a]
  | x :: xs => if le a x then a :: x :: xs else x :: sortInsert le a xs

/-- Stable insertion sort, the model of ORDER BY. -/
def sortBy {α : Type} (le : α → α → Bool) : List α → List α
  | [] => []
  | x :: xs => sortInsert le x (sortBy le xs)

/-- ORDER BY title COLLATE NOCASE: case-insensitive comparison of the
title strings. -/
def titleLeShow (a b : ShowRow) : Bool :=
  decide (a.title.toLower ≤ b.title.toLower)

/-- A listing row of the cliparr-next GET show listing: the show columns
plus the per-show season and episode counts. -/
structure NextListing where
  id : Nat
  title : String
  sonarr_id : Nat
  path : String
  seasons_count : Nat
  episodes_count : Nat
deriving DecidableEq, Repr

/-- The paginated response of cliparr-next get_imported_shows. -/
structure NextPaged where
  shows : List NextListing
  total : Nat
  page : Nat
  page_size : Nat
  total_pages : Nat
deriving DecidableEq, Repr

namespace NextDb

/-- The per-show stats query of main.py get_imported_shows:
COUNT(DISTINCT s.id) and COUNT(e.id) over seasons LEFT JOIN episodes
for one show. -/
def showStats (db : Db) (showId : Nat) : Nat × Nat :=
  let seasonsOf := db.seasons.filter (fun s => s.show_id == showId)
  ((seasonsOf.map (fun s => s.id)).dedup.length,
   seasonsOf.foldl
     (fun acc s => acc + (db.episodes.filter
       (fun e => e.season_id == s.id)).length) 0)

/-- get_imported_shows from cliparr-next/backend/app/main.py
(lines 266-424): sanitise page and page_size to at least 1, count the
shows, compute total_pages with ceiling division (at least 1), clamp the
page to the last page, and fetch one page ordered by title with
LIMIT page_size OFFSET (page-1)*page_size, enriching each row with its
season and episode counts. -/
def get_imported_shows (p ps : Int) (db : Db) : NextPaged :=
  let page0 : Nat := (max 1 p).toNat
  let pageSize : Nat := (max 1 ps).toNat
  let total := db.shows.length
  let totalPages := max 1 ((total + pageSize - 1) / pageSize)
  let page := min page0 totalPages
  let offset := (page - 1) * pageSize
  let rows := ((sortBy titleLeShow db.shows).drop offset).take pageSize
  { shows := rows.map (fun r =>
      let st := showStats db r.id
      ⟨r.id, r.title, r.sonarr_id, r.path, st.1, st.2⟩),
    total := total,
    page := page,
    page_size := pageSize,
    total_pages := totalPages }

end NextDb

/-- The grouping key of the cliparr-old listing query:
GROUP BY s.id, s.title, s.path, s.sonarr_id. -/
structure OldRowKey where
  id : Nat
  title : String
  path : String
  sonarr_id : Nat
deriving DecidableEq, Repr

/-- A listing row of the cliparr-old show listing. -/
structure OldListing where
  id : Nat
  title : String
  path : String
  sonarr_id : Nat
  episode_count : Nat
deriving DecidableEq, Repr

/-- The paginated response of cliparr-old
get_imported_shows_optimized. -/
structure OldPaged where
  shows : List OldListing
  total : Nat
  page : Nat
  page_size : Nat
deriving DecidableEq, Repr

namespace OldDb

/-- The distinct grouping keys of the show_episodes CTE, in first-seen
order. -/
def showKeys (db : Db) : List OldRowKey :=
  (db.shows.map (fun r => (⟨r.id, r.title, r.path, r.sonarr_id⟩ : OldRowKey))).dedup

/-- COUNT(DISTINCT e.id) over shows LEFT JOIN seasons LEFT JOIN
episodes for one show. -/
def episodeCount (db : Db) (showId : Nat) : Nat :=
  ((db.episodes.filter
      (fun e => db.seasons.any
        (fun s => s.id == e.season_id && s.show_id == showId))).map
    (fun e => e.id)).dedup.length

/-- ORDER BY title COLLATE NOCASE over the grouping keys. -/
def titleLeKey (a b : OldRowKey) : Bool :=
  decide (a.title.toLower ≤ b.title.toLower)

/-- get_imported_shows_optimized from src/cliparr-old/db/manager.py
(lines 206-271): sanitise page and page_size to at least 1, number the
grouped shows by title order (ROW_NUMBER), return the rows with
row_num BETWEEN (page-1)*page_size+1 AND (page-1)*page_size+page_size,
and report COUNT(*) FROM shows as total.  No clamping is applied, so a
page past the end yields an empty row list. -/
def get_imported_shows_optimized (p ps : Int) (db : Db) : OldPaged :=
  let page : Nat := (max 1 p).toNat
  let pageSize : Nat := (max 1 ps).toNat
  let ordered := sortBy titleLeKey (showKeys db)
  let startRow := (page - 1) * pageSize + 1
  let rows := (ordered.drop (startRow - 1)).take pageSize
  { shows := rows.map (fun k =>
      ⟨k.id, k.title, k.path, k.sonarr_id, episodeCount db k.id⟩),
    total := db.shows.length,
    page := page,
    page_size := pageSize }

end OldDb

/-- The sanitised page count the cliparr-next listing computes for a
given catalog size and raw page_size argument. -/
def nextTotalPages (db : Db) (ps : Int) : Nat :=
  max 1 ((db.shows.length + (max 1 ps).toNat - 1) / (max 1 ps).toNat)

/-- Structural invariant of the season table used by the reconciliation
proof: every season id was issued by the sequence counter and ids are
pairwise distinct. -/
def SeasonIdsOk (db : Db) : Prop :=
  (∀ s ∈ db.seasons, s.id ≤ db.seasonSeq) ∧ (db.seasons.map (fun s => s.id)).Nodup

/-- Referential integrity of episodes: every episode points at an
existing season row. -/
def EpisodesFkOk (db : Db) : Prop :=
  ∀ e ∈ db.episodes, ∃ s ∈ db.seasons, e.season_id = s.id

/-- The episodes about to be inserted clash with nothing stored: no
stored row shares a remote episode id with them, and no stored episode
of the selected show shares a (season number, episode number) slot with
them. -/
def NoClash (localShowId : Nat) (db : Db) (eps : List RemoteEpisode) : Prop :=
  (∀ ep ∈ eps, ∀ e ∈ db.episodes, e.sonarr_episode_id ≠ ep.id) ∧
  (∀ ep ∈ eps, ∀ e ∈ db.episodes, ∀ s ∈ db.seasons,
      e.season_id = s.id → s.show_id = localShowId →
      s.season_number = ep.seasonNumber → e.episode_number ≠ ep.episodeNumber)

/-- The fetched episode batch is internally consistent: remote ids and
(season number, episode number) slots are pairwise distinct. -/
def KeysNodup (eps : List RemoteEpisode) : Prop :=
  (eps.map (fun ep => ep.id)).Nodup ∧
  (eps.map (fun ep => (ep.seasonNumber, ep.episodeNumber))).Nodup

instance (db : Db) : Decidable (SeasonIdsOk db) :=
  inferInstanceAs (Decidable ((∀ s ∈ db.seasons, s.id ≤ db.seasonSeq) ∧
    (db.seasons.map (fun s : SeasonRow => s.id)).Nodup))

instance (db : Db) : Decidable (EpisodesFkOk db) :=
  inferInstanceAs (Decidable (∀ e ∈ db.episodes, ∃ s ∈ db.seasons,
    e.season_id = s.id))

instance (localShowId : Nat) (db : Db) (eps : List RemoteEpisode) :
    Decidable (NoClash localShowId db eps) :=
  inferInstanceAs (Decidable
    ((∀ ep ∈ eps, ∀ e ∈ db.episodes, e.sonarr_episode_id ≠ ep.id) ∧
     (∀ ep ∈ eps, ∀ e ∈ db.episodes, ∀ s ∈ db.seasons,
        e.season_id = s.id → s.show_id = localShowId →
        s.season_number = ep.seasonNumber →
        e.episode_number ≠ ep.episodeNumber)))

instance (eps : List RemoteEpisode) : Decidable (KeysNodup eps) :=
  inferInstanceAs (Decidable
    ((eps.map (fun ep : RemoteEpisode => ep.id)).Nodup ∧
     (eps.map (fun ep : RemoteEpisode =>
        (ep.seasonNumber, ep.episodeNumber))).Nodup))

/-- The uniqueness invariant on seasons asserted by the spec: no two
rows share a (show_id, season_number) pair. -/
def SeasonKeyPairwise (db : Db) : Prop :=
  db.seasons.Pairwise
    (fun a b => ¬(a.show_id = b.show_id ∧ a.season_number = b.season_number))

/-- The uniqueness invariant on episodes asserted by the spec: no two
rows share a remote (sonarr) episode id. -/
def EpisodeIdPairwise (db : Db) : Prop :=
  db.episodes.Pairwise (fun a b => ¬ a.sonarr_episode_id = b.sonarr_episode_id)

/-- A sample catalog: one show with two seasons, two episodes and one
episode file. -/
def sampleDb : Db :=
  ⟨[⟨1, 50, "t", "", ""⟩], [⟨1, 1, 1⟩, ⟨2, 1, 2⟩],
   [⟨1, 1, 1, "a", 10⟩, ⟨2, 2, 1, "b", 11⟩], [⟨1, 1, "p", 5, "HD"⟩], 1, 2, 2⟩

/-- A sample catalog holding one show whose stored episodes carry the
remote ids 1, 2 and 3. -/
def catalog123 : Db :=
  ⟨[⟨1, 100, "S", "", ""⟩], [⟨1, 1, 1⟩],
   [⟨1, 1, 1, "e1", 1⟩, ⟨2, 1, 2, "e2", 2⟩, ⟨3, 1, 3, "e3", 3⟩], [], 1, 1, 3⟩

/-- A sample remote episode list carrying the remote ids 2, 3, 4 and 5
for show 100. -/
def remote2345 : List RemoteEpisode :=
  [⟨2, 1, 2, "e2"⟩, ⟨3, 1, 3, "e3"⟩, ⟨4, 1, 4, "e4"⟩, ⟨5, 1, 5, "e5"⟩]

/-- A sample catalog of 25 distinct shows and no episodes. -/
def catalog25 : Db :=
  ⟨(List.range 25).map (fun i => ⟨i + 1, i + 100, "t", "", ""⟩),
   [], [], [], 25, 0, 0⟩

/- ------------------------------------------------------------------
Theorems.
------------------------------------------------------------------ -/

/-- C2: the spec and the dead lastrowid fallback of insert_show both
intend a stable local id, but INSERT OR REPLACE on the cliparr-next
schema deletes the conflicting row and returns a fresh AUTOINCREMENT
id.  Evaluated at the failing input (two upserts of remote show 7 with
titles A then B against an empty store): one row with the latest title
remains, but the calls return local ids 1 and then 2. -/
theorem insert_show_id_not_stable :
    (NextDb.insert_show (⟨[], [], [], [], 0, 0, 0⟩ : Db) ⟨7, "A", "", ""⟩).1 = 1 ∧
    (NextDb.insert_show
      (NextDb.insert_show (⟨[], [], [], [], 0, 0, 0⟩ : Db) ⟨7, "A", "", ""⟩).2
      ⟨7, "B", "", ""⟩).1 = 2 ∧
    (NextDb.insert_show
      (NextDb.insert_show (⟨[], [], [], [], 0, 0, 0⟩ : Db) ⟨7, "A", "", ""⟩).2
      ⟨7, "B", "", ""⟩).2.shows = [⟨2, 7, "B", "", ""⟩] := by
  decide

/-- C5 counterexample: the legacy remote-catalog client maps a network
failure, a 503 and a 500 on the show or episode list to the empty list
instead of surfacing an error, refuting the claim that no failing fetch
returns an empty list. -/
theorem legacy_client_swallows_failure :
    LegacyApi.fetch_series_data (α := Nat) (.netErr "connection timed out") = [] ∧
    LegacyApi.fetch_series_data (α := Nat) (.response 503 [1, 2, 3]) = [] ∧
    LegacyApi.fetch_json (α := Nat) (.response 500 [4]) = [] := by
  decide

/-- C5 amended: the cliparr-next client surfaces every failing fetch of
the show list or an episode list (network error or 4xx/5xx status) as an
error to its caller, while the legacy client returns the empty list for
the same failures. -/
theorem next_client_surfaces_failure :
    ∀ o : HttpOutcome (List Nat), FetchFails o →
      (∃ e, NextApi.fetch_series_data o = .error e) ∧
      (∃ e, NextApi.fetch_json o = .error e) ∧
      LegacyApi.fetch_series_data o = [] := by
  intro o hf
  cases o with
  | netErr m =>
      exact ⟨⟨m, rfl⟩, ⟨m, rfl⟩, rfl⟩
  | response status body =>
      have hs : 400 ≤ status ∧ status < 600 := hf
      simp [NextApi.fetch_series_data, NextApi.fetch_json,
            LegacyApi.fetch_series_data, raise_for_status, hs]

/-- C5 witness: the amended theorem applied to a concrete network
failure. -/
theorem next_client_surfaces_failure_witness :
    FetchFails (.netErr "connection refused" : HttpOutcome (List Nat)) ∧
    ((∃ e, NextApi.fetch_series_data
        (.netErr "connection refused" : HttpOutcome (List Nat)) = .error e) ∧
     (∃ e, NextApi.fetch_json
        (.netErr "connection refused" : HttpOutcome (List Nat)) = .error e) ∧
     LegacyApi.fetch_series_data
        (.netErr "connection refused" : HttpOutcome (List Nat)) = []) :=
  ⟨trivial, next_client_surfaces_failure _ trivial⟩

/-- C7 counterexample: the mode endpoint lowercases before validating,
so posting AUTO — a value outside the set of the three accepted strings
— changes the stored import_mode and succeeds, refuting the claim that
every value outside the set leaves the stored setting unchanged. -/
theorem uppercase_mode_writes_setting :
    ("AUTO" ≠ "auto" ∧ "AUTO" ≠ "import" ∧ "AUTO" ≠ "none") ∧
    (NextDb.update_import_mode (some "AUTO") [("import_mode", "none")]).2 =
      [("import_mode", "auto")] ∧
    (NextDb.update_import_mode (some "AUTO") [("import_mode", "none")]).1.error =
      none := by
  decide

/-- C7 amended: posting any mode whose lowercased value is outside
auto, import and none leaves the stored setting unchanged and returns
the Invalid mode error body, and the stored settings change only when
the lowercased value is one of the three accepted strings. -/
theorem mode_validation_lowercased :
    ∀ (body : Option String) (st : SettingsStore),
      (¬(lowerStr (body.getD "none") = "auto" ∨
          lowerStr (body.getD "none") = "import" ∨
          lowerStr (body.getD "none") = "none") →
        (NextDb.update_import_mode body st).2 = st ∧
        (NextDb.update_import_mode body st).1.error = some "Invalid mode") ∧
      ((NextDb.update_import_mode body st).2 ≠ st →
        (lowerStr (body.getD "none") = "auto" ∨
         lowerStr (body.getD "none") = "import" ∨
         lowerStr (body.getD "none") = "none")) := by
  intro body st
  by_cases h : (lowerStr (body.getD "none") == "auto" ||
      lowerStr (body.getD "none") == "import" ||
      lowerStr (body.getD "none") == "none") = true
  · refine ⟨fun hno => absurd ?_ hno, fun _ => ?_⟩
    · simpa [or_assoc] using h
    · simpa [or_assoc] using h
  · refine ⟨fun _ => ?_, fun hne => absurd ?_ hne⟩
    · constructor
      · simp only [NextDb.update_import_mode, h, Bool.false_eq_true, if_false]
      · simp only [NextDb.update_import_mode, h, Bool.false_eq_true, if_false]
    · simp only [NextDb.update_import_mode, h, Bool.false_eq_true, if_false]

/-- C7 witness: the amended theorem applied to the posted value bogus
against a store holding mode auto. -/
theorem mode_validation_lowercased_witness :
    (¬(lowerStr "bogus" = "auto" ∨
        lowerStr "bogus" = "import" ∨
        lowerStr "bogus" = "none")) ∧
    (NextDb.update_import_mode (some "bogus") [("import_mode", "auto")]).2 =
      [("import_mode", "auto")] ∧
    (NextDb.update_import_mode (some "bogus") [("import_mode", "auto")]).1.error =
      some "Invalid mode" :=
  ⟨by decide,
   (mode_validation_lowercased (some "bogus") [("import_mode", "auto")]).1
     (by decide)⟩

/-- C9: when the duration probe and the head segment succeed but the
tail-segment tool invocation fails, scan_episode still returns an
overall success carrying the head digest and no tail digest, and only
the head digest is stored. -/
theorem probe_degradation :
    ∀ (hash : String → String) (filePath : String) (d : Int)
      (introRun outroRun : ToolRun) (st : FpStore) (h : String),
      AudioFp.generate_audio_fingerprint hash introRun = some h →
      AudioFp.generate_audio_fingerprint hash outroRun = none →
      AudioFp.scan_episode hash filePath (some d) introRun outroRun st =
        some (⟨filePath, d, some h, none⟩,
          AudioFp.insertFingerprint st filePath h 0 180 "intro") := by
  intro hash filePath d introRun outroRun st h hi ho
  simp [AudioFp.scan_episode, hi, ho]

/-- C9 witness: the theorem applied to a head run that exits cleanly and
a tail run whose spawn fails. -/
theorem probe_degradation_witness :
    AudioFp.generate_audio_fingerprint (fun s => s) (.exitWith 0 "stats") =
      some "stats" ∧
    AudioFp.generate_audio_fingerprint (fun s => s) (.crash "spawn failed") =
      none ∧
    AudioFp.scan_episode (fun s => s) "ep.mkv" (some 1300)
        (.exitWith 0 "stats") (.crash "spawn failed") ⟨[], 0⟩ =
      some (⟨"ep.mkv", 1300, some "stats", none⟩,
        AudioFp.insertFingerprint ⟨[], 0⟩ "ep.mkv" "stats" 0 180 "intro") :=
  ⟨rfl, rfl, probe_degradation _ _ _ _ _ _ _ rfl rfl⟩

/-- C10: get_import_mode never raises: a storage error during the read
and a store without an import_mode row both yield the string none, and
after set_import_mode stores a value the read returns exactly that
value. -/
theorem get_import_mode_never_raises :
    (∀ e : String, Settings.get_import_mode (.error e) = "none") ∧
    (∀ st : SettingsStore,
        st.find? (fun kv => kv.1 == "import_mode") = none →
        Settings.get_import_mode (.ok st) = "none") ∧
    (∀ (st : SettingsStore) (v : String),
        Settings.get_import_mode (.ok (Settings.set_import_mode v st)) = v) := by
  refine ⟨fun e => rfl, fun st h => by simp [Settings.get_import_mode, h],
    fun st v => ?_⟩
  have h1 : (st.filter (fun kv => !(kv.1 == "import_mode"))).find?
      (fun kv => kv.1 == "import_mode") = none := by
    rw [List.find?_eq_none]
    intro kv hkv
    have := (List.mem_filter.mp hkv).2
    simp at this
    simp [this]
  simp [Settings.get_import_mode, Settings.set_import_mode,
        List.find?_append, h1]

/-- C10 witness: the theorem applied to a concrete storage error, the
empty store, and a store produced by writing the mode auto. -/
theorem get_import_mode_never_raises_witness :
    Settings.get_import_mode (.error "database is locked") = "none" ∧
    (([] : SettingsStore).find? (fun kv => kv.1 == "import_mode") = none) ∧
    Settings.get_import_mode (.ok ([] : SettingsStore)) = "none" ∧
    Settings.get_import_mode (.ok (Settings.set_import_mode "auto" [])) =
      "auto" :=
  ⟨get_import_mode_never_raises.1 "database is locked", rfl,
   get_import_mode_never_raises.2.1 [] rfl,
   get_import_mode_never_raises.2.2 [] "auto"⟩

/-- C6 counterexample: the cliparr-next FastAPI import and delete
handlers answer an empty showIds list with the plain error dict, which
the framework sends with status 200, not a 4xx client error. -/
theorem next_empty_selection_status_200 :
    (NextDb.delete_imported_shows (some [])
        (⟨[], [], [], [], 0, 0, 0⟩ : Db)).1.status = 200 ∧
    (NextDb.import_selected_shows (some []) []
        (⟨[], [], [], [], 0, 0, 0⟩ : Db)).1.status = 200 ∧
    (NextDb.delete_imported_shows (some [])
        (⟨[], [], [], [], 0, 0, 0⟩ : Db)).1.error = some "No show IDs provided" ∧
    ¬(400 ≤ 200 ∧ 200 < 500) := by
  decide

/-- C6 amended: an import or delete request whose showIds list is empty
or missing performs zero database writes in every version and is
answered with an error body — status 400 by the Flask handlers and
status 200 with the error dict by the FastAPI handlers. -/
theorem empty_selection_zero_writes :
    ∀ (db : Db) (series : List RemoteShowData) (body : Option (List Nat)),
      body.getD [] = [] →
      LegacyDb.import_selected_shows body series db =
        (⟨400, some "No show IDs provided"⟩, db) ∧
      LegacyDb.delete_imported_shows body db =
        (⟨400, some "No show IDs provided"⟩, db) ∧
      NextDb.import_selected_shows body series db =
        (⟨200, some "No show IDs provided"⟩, db) ∧
      NextDb.delete_imported_shows body db =
        (⟨200, some "No show IDs provided"⟩, db) := by
  intro db series body h
  refine ⟨?_, ?_, ?_, ?_⟩ <;>
    simp [LegacyDb.import_selected_shows, LegacyDb.delete_imported_shows,
          NextDb.import_selected_shows, NextDb.delete_imported_shows, h]

/-- C6 witness: the amended theorem applied to a request with a missing
showIds field against a one-show catalog. -/
theorem empty_selection_zero_writes_witness :
    ((none : Option (List Nat)).getD [] = []) ∧
    (LegacyDb.import_selected_shows none []
        (⟨[⟨1, 9, "t", "", ""⟩], [], [], [], 1, 0, 0⟩ : Db) =
      (⟨400, some "No show IDs provided"⟩,
        (⟨[⟨1, 9, "t", "", ""⟩], [], [], [], 1, 0, 0⟩ : Db)) ∧
     LegacyDb.delete_imported_shows none
        (⟨[⟨1, 9, "t", "", ""⟩], [], [], [], 1, 0, 0⟩ : Db) =
      (⟨400, some "No show IDs provided"⟩,
        (⟨[⟨1, 9, "t", "", ""⟩], [], [], [], 1, 0, 0⟩ : Db)) ∧
     NextDb.import_selected_shows none []
        (⟨[⟨1, 9, "t", "", ""⟩], [], [], [], 1, 0, 0⟩ : Db) =
      (⟨200, some "No show IDs provided"⟩,
        (⟨[⟨1, 9, "t", "", ""⟩], [], [], [], 1, 0, 0⟩ : Db)) ∧
     NextDb.delete_imported_shows none
        (⟨[⟨1, 9, "t", "", ""⟩], [], [], [], 1, 0, 0⟩ : Db) =
      (⟨200, some "No show IDs provided"⟩,
        (⟨[⟨1, 9, "t", "", ""⟩], [], [], [], 1, 0, 0⟩ : Db))) :=
  ⟨rfl, empty_selection_zero_writes _ _ _ rfl⟩

/-- C3: the bulk delete keyed on a set of show ids leaves no season,
episode, episode-file or show row that referenced a selected show
directly or through its season and episode chain in the pre-delete
state. -/
theorem cascading_delete_no_orphans :
    ∀ (db : Db) (ids : List Nat) (sid : Nat), sid ∈ ids →
      (∀ s ∈ db.seasons, s.show_id = sid → s ∉ (deleteShows db ids).seasons) ∧
      (∀ e ∈ db.episodes,
          (∃ s ∈ db.seasons, e.season_id = s.id ∧ s.show_id = sid) →
          e ∉ (deleteShows db ids).episodes) ∧
      (∀ f ∈ db.episode_files,
          (∃ e ∈ db.episodes, f.episode_id = e.id ∧
            ∃ s ∈ db.seasons, e.season_id = s.id ∧ s.show_id = sid) →
          f ∉ (deleteShows db ids).episode_files) ∧
      (∀ r ∈ db.shows, r.id = sid → r ∉ (deleteShows db ids).shows) := by
  intro db ids sid hsid
  refine ⟨?_, ?_, ?_, ?_⟩
  · intro s _ hshow hmem
    have hkeep := (List.mem_filter.mp hmem).2
    simp [deleteShows] at hkeep
    exact absurd (hshow ▸ hsid) hkeep
  · intro e _ ⟨s, hsmem, hseq, hshow⟩ hmem
    have hkeep := (List.mem_filter.mp hmem).2
    simp [deleteShows] at hkeep
    exact absurd (hshow ▸ hsid) (hkeep s hsmem hseq.symm)
  · intro f _ ⟨e, hemem, hfe, s, hsmem, hseq, hshow⟩ hmem
    have hin : f.episode_id ∈ (db.episodes.filter
        (fun e2 => db.seasons.any
          (fun s2 => s2.id == e2.season_id && ids.contains s2.show_id))).map
        (fun e2 => e2.id) := by
      refine List.mem_map.mpr ⟨e, List.mem_filter.mpr ⟨hemem, ?_⟩, hfe.symm⟩
      refine List.any_eq_true.mpr ⟨s, hsmem, ?_⟩
      simp [hseq]
      exact hshow ▸ hsid
    have hkeep := (List.mem_filter.mp hmem).2
    have hout : f.episode_id ∉ (db.episodes.filter
        (fun e2 => db.seasons.any
          (fun s2 => s2.id == e2.season_id && ids.contains s2.show_id))).map
        (fun e2 => e2.id) := by simpa using hkeep
    exact hout hin
  · intro r _ hid hmem
    have hkeep := (List.mem_filter.mp hmem).2
    simp [deleteShows] at hkeep
    exact absurd (hid ▸ hsid) hkeep

/-- C3 witness: the theorem applied to the one-show sample catalog with
its two seasons, two episodes and one file, deleting show 1. -/
theorem cascading_delete_no_orphans_witness :
    (1 ∈ [1]) ∧
    ((∀ s ∈ sampleDb.seasons, s.show_id = 1 →
        s ∉ (deleteShows sampleDb [1]).seasons) ∧
     (∀ e ∈ sampleDb.episodes,
        (∃ s ∈ sampleDb.seasons, e.season_id = s.id ∧ s.show_id = 1) →
        e ∉ (deleteShows sampleDb [1]).episodes) ∧
     (∀ f ∈ sampleDb.episode_files,
        (∃ e ∈ sampleDb.episodes, f.episode_id = e.id ∧
          ∃ s ∈ sampleDb.seasons, e.season_id = s.id ∧ s.show_id = 1) →
        f ∉ (deleteShows sampleDb [1]).episode_files) ∧
     (∀ r ∈ sampleDb.shows, r.id = 1 → r ∉ (deleteShows sampleDb [1]).shows)) :=
  ⟨by decide, cascading_delete_no_orphans sampleDb [1] 1 (by decide)⟩

/-- Helper: in a season table whose (show_id, season_number) pairs are
pairwise distinct, at most one row matches a given pair. -/
theorem countP_le_one_of_pairwise_key (l : List SeasonRow) (showId n : Nat)
    (h : l.Pairwise
      (fun a b => ¬(a.show_id = b.show_id ∧ a.season_number = b.season_number))) :
    l.countP (fun t => t.show_id == showId && t.season_number == n) ≤ 1 := by
  induction l with
  | nil => simp
  | cons a l ih =>
      rcases List.pairwise_cons.mp h with ⟨ha, hl⟩
      rw [List.countP_cons]
      by_cases hp : (a.show_id == showId && a.season_number == n) = true
      · have hzero :
            l.countP (fun t => t.show_id == showId && t.season_number == n) = 0 := by
          rw [List.countP_eq_zero]
          intro b hb hbp
          simp at hp hbp
          exact ha b hb ⟨hp.1.trans hbp.1.symm, hp.2.trans hbp.2.symm⟩
        simp [hp, hzero]
      · have := ih hl
        simp [hp]
        omega

/-- C4 counterexample: with the legacy schema (src/app.py) the seasons
table carries no UNIQUE(show_id, season_number) constraint, so two
insert_season calls for the same (1, 5) pair against an empty store
leave two season rows, refuting the claimed invariant. -/
theorem legacy_insert_season_duplicates :
    ((LegacyDb.insert_season
        (LegacyDb.insert_season (⟨[], [], [], [], 0, 0, 0⟩ : Db) 1 5).2
        1 5).2.seasons.countP
      (fun s => s.show_id == 1 && s.season_number == 5)) = 2 := by
  decide

/-- C4 amended: against the cliparr-next schema, whose tables declare
the UNIQUE constraints, every store operation — insert_show,
insert_season, insert_episode and the bulk delete — preserves the
invariant that (show_id, season_number) pairs and remote episode ids
are pairwise unique, and two insert_season calls with the same pair
leave exactly one row with that pair.  The legacy schema lacks the
season constraint and admits duplicates. -/
theorem next_store_unique_keys :
    ∀ (db : Db) (s : RemoteShow) (showId n sid : Nat) (ep : RemoteEpisode)
      (ids : List Nat),
      SeasonKeyPairwise db → EpisodeIdPairwise db →
      (SeasonKeyPairwise (NextDb.insert_show db s).2 ∧
       EpisodeIdPairwise (NextDb.insert_show db s).2) ∧
      (SeasonKeyPairwise (NextDb.insert_season db showId n).2 ∧
       EpisodeIdPairwise (NextDb.insert_season db showId n).2) ∧
      (SeasonKeyPairwise (NextDb.insert_episode db sid ep).2 ∧
       EpisodeIdPairwise (NextDb.insert_episode db sid ep).2) ∧
      (SeasonKeyPairwise (deleteShows db ids) ∧
       EpisodeIdPairwise (deleteShows db ids)) ∧
      ((NextDb.insert_season (NextDb.insert_season db showId n).2
          showId n).2.seasons.countP
        (fun t => t.show_id == showId && t.season_number == n) = 1) := by
  intro db s showId n sid ep ids hs he
  have hseason : ∀ d : Db, (NextDb.insert_season d showId n).2 =
      if d.seasons.any (fun t => t.show_id == showId && t.season_number == n)
      then d
      else { d with
              seasons := d.seasons ++ [⟨d.seasonSeq + 1, showId, n⟩],
              seasonSeq := d.seasonSeq + 1 } :=
    fun d => rfl
  have hinsSeason : SeasonKeyPairwise (NextDb.insert_season db showId n).2 := by
    rw [SeasonKeyPairwise, hseason db]
    by_cases hc : db.seasons.any
        (fun t => t.show_id == showId && t.season_number == n) = true
    · rw [if_pos hc]
      exact hs
    · rw [if_neg hc]
      refine List.pairwise_append.mpr ⟨hs, List.pairwise_singleton _ _, ?_⟩
      intro a hamem b hbmem
      have hb : b = ⟨db.seasonSeq + 1, showId, n⟩ := List.mem_singleton.mp hbmem
      have hnot : ∀ t ∈ db.seasons,
          ¬(t.show_id = showId ∧ t.season_number = n) := by
        intro t ht
        by_contra hcontra
        exact hc (List.any_eq_true.mpr
          ⟨t, ht, by simp [hcontra.1, hcontra.2]⟩)
      intro hab
      exact hnot a hamem (by simpa [hb] using hab)
  refine ⟨⟨hs, he⟩, ⟨hinsSeason, ?_⟩, ⟨?_, ?_⟩, ⟨?_, ?_⟩, ?_⟩
  · rw [EpisodeIdPairwise, hseason db]
    by_cases hc : db.seasons.any
        (fun t => t.show_id == showId && t.season_number == n) = true
    · rw [if_pos hc]; exact he
    · rw [if_neg hc]; exact he
  · exact hs
  · rw [EpisodeIdPairwise]
    refine List.pairwise_append.mpr
      ⟨List.Pairwise.filter _ he, List.pairwise_singleton _ _, ?_⟩
    intro a hamem b hbmem
    have hb : b = ⟨db.episodeSeq + 1, sid, ep.episodeNumber, ep.title, ep.id⟩ :=
      List.mem_singleton.mp hbmem
    have hkeep := (List.mem_filter.mp hamem).2
    simp [NextDb.episodeConflict] at hkeep
    intro hab
    exact hkeep.1 (by simpa [hb] using hab)
  · rw [SeasonKeyPairwise]
    exact List.Pairwise.filter _ hs
  · rw [EpisodeIdPairwise]
    exact List.Pairwise.filter _ he
  · by_cases hc : db.seasons.any
        (fun t => t.show_id == showId && t.season_number == n) = true
    · have h1 : (NextDb.insert_season db showId n).2 = db := by
        rw [hseason db, if_pos hc]
      rw [h1, hseason db, if_pos hc]
      have hle := countP_le_one_of_pairwise_key db.seasons showId n hs
      have hpos : 0 < db.seasons.countP
          (fun t => t.show_id == showId && t.season_number == n) := by
        rcases List.any_eq_true.mp hc with ⟨t, ht, hpt⟩
        exact List.countP_pos_iff.mpr ⟨t, ht, hpt⟩
      omega
    · have h1 : (NextDb.insert_season db showId n).2 =
          { db with
              seasons := db.seasons ++ [⟨db.seasonSeq + 1, showId, n⟩],
              seasonSeq := db.seasonSeq + 1 } := by
        rw [hseason db, if_neg hc]
      have hany2 : ({ db with
              seasons := db.seasons ++ [⟨db.seasonSeq + 1, showId, n⟩],
              seasonSeq := db.seasonSeq + 1 } : Db).seasons.any
          (fun t => t.show_id == showId && t.season_number == n) = true := by
        refine List.any_eq_true.mpr
          ⟨⟨db.seasonSeq + 1, showId, n⟩, by simp, by simp⟩
      rw [h1, hseason _, if_pos hany2]
      have hzero : db.seasons.countP
          (fun t => t.show_id == showId && t.season_number == n) = 0 := by
        rw [List.countP_eq_zero]
        intro t ht hpt
        exact hc (List.any_eq_true.mpr ⟨t, ht, hpt⟩)
      simp [List.countP_append, hzero, List.countP_cons]

/-- C4 witness: the amended theorem applied to the empty store, the
remote show 5, the season pair (1, 5), a sample episode and the delete
selection containing show 2. -/
theorem next_store_unique_keys_witness :
    SeasonKeyPairwise (⟨[], [], [], [], 0, 0, 0⟩ : Db) ∧
    EpisodeIdPairwise (⟨[], [], [], [], 0, 0, 0⟩ : Db) ∧
    (((NextDb.insert_season (NextDb.insert_season
        (⟨[], [], [], [], 0, 0, 0⟩ : Db) 1 5).2 1 5).2.seasons.countP
      (fun t => t.show_id == 1 && t.season_number == 5)) = 1) :=
  ⟨List.Pairwise.nil, List.Pairwise.nil,
   (next_store_unique_keys (⟨[], [], [], [], 0, 0, 0⟩ : Db) ⟨5, "t", "", ""⟩
      1 5 0 ⟨9, 1, 1, "e"⟩ [2] List.Pairwise.nil
      List.Pairwise.nil).2.2.2.2⟩

/-- Helper: inserting into a sorted list adds one element. -/
theorem length_sortInsert {α : Type} (le : α → α → Bool) (a : α)
    (l : List α) : (sortInsert le a l).length = l.length + 1 := by
  induction l with
  | nil => rfl
  | cons x xs ih =>
      by_cases h : le a x <;> simp [sortInsert, h, ih]

/-- Helper: the ORDER BY model permutes, so it preserves length. -/
theorem length_sortBy {α : Type} (le : α → α → Bool) (l : List α) :
    (sortBy le l).length = l.length := by
  induction l with
  | nil => rfl
  | cons x xs ih => simp [sortBy, length_sortInsert, ih]

/-- Helper: the sanitised ceiling page count covers the whole catalog:
catalog size is at most total_pages times page size. -/
theorem ceil_pages_mul_ge (nlen psz : Nat) (hps : 0 < psz) :
    nlen ≤ (max 1 ((nlen + psz - 1) / psz)) * psz := by
  rcases Nat.eq_zero_or_pos nlen with h | h
  · simp [h]
  · have hrw : nlen + psz - 1 = (nlen - 1) + psz := by omega
    rw [hrw, Nat.add_div_right _ hps, Nat.max_eq_right (Nat.le_add_left 1 _)]
    have hlt : (nlen - 1) < ((nlen - 1) / psz + 1) * psz :=
      (Nat.div_lt_iff_lt_mul hps).mp (Nat.lt_succ_self _)
    omega

/-- C8: against a catalog of 25 shows, page 1 with page size 10 returns
exactly 10 rows and total 25 in both listing versions; and any page
beyond the last is clamped to the last page by the cliparr-next
version and answered with an empty row list by the cliparr-old version,
in both cases with the correct total and without an error. -/
theorem pagination_bounds :
    (∀ db : Db, db.shows.length = 25 →
        (NextDb.get_imported_shows 1 10 db).shows.length = 10 ∧
        (NextDb.get_imported_shows 1 10 db).total = 25) ∧
    (∀ db : Db, db.shows.length = 25 →
        (db.shows.map
          (fun r => (⟨r.id, r.title, r.path, r.sonarr_id⟩ : OldRowKey))).Nodup →
        (OldDb.get_imported_shows_optimized 1 10 db).shows.length = 10 ∧
        (OldDb.get_imported_shows_optimized 1 10 db).total = 25) ∧
    (∀ (db : Db) (p ps : Int), (nextTotalPages db ps : Int) < p →
        NextDb.get_imported_shows p ps db =
          NextDb.get_imported_shows ((nextTotalPages db ps : Nat) : Int) ps db ∧
        (NextDb.get_imported_shows p ps db).total = db.shows.length ∧
        (OldDb.get_imported_shows_optimized p ps db).shows = [] ∧
        (OldDb.get_imported_shows_optimized p ps db).total = db.shows.length) := by
  refine ⟨?_, ?_, ?_⟩
  · intro db h25
    constructor
    · simp [NextDb.get_imported_shows, h25, length_sortBy]
    · simp [NextDb.get_imported_shows, h25]
  · intro db h25 hnd
    have hkeys : (OldDb.showKeys db).length = 25 := by
      rw [OldDb.showKeys, List.dedup_eq_self.mpr hnd, List.length_map, h25]
    constructor
    · simp [OldDb.get_imported_shows_optimized, length_sortBy, hkeys]
    · simp [OldDb.get_imported_shows_optimized, h25]
  · intro db p ps hp
    have hps1 : 1 ≤ (max 1 ps).toNat := by omega
    have htp1 : 1 ≤ nextTotalPages db ps := le_max_left 1 _
    have hptot : nextTotalPages db ps ≤ (max 1 p).toNat := by omega
    have hpage1 :
        min (max 1 p).toNat
          (max 1 ((db.shows.length + (max 1 ps).toNat - 1) / (max 1 ps).toNat)) =
        nextTotalPages db ps := by
      rw [nextTotalPages] at hptot ⊢
      omega
    have hpage2 :
        min (max 1 ((nextTotalPages db ps : Nat) : Int)).toNat
          (max 1 ((db.shows.length + (max 1 ps).toNat - 1) / (max 1 ps).toNat)) =
        nextTotalPages db ps := by
      rw [nextTotalPages] at htp1 ⊢
      omega
    have hmulge : db.shows.length ≤ nextTotalPages db ps * (max 1 ps).toNat :=
      ceil_pages_mul_ge db.shows.length (max 1 ps).toNat hps1
    have hdroplen :
        (sortBy OldDb.titleLeKey (OldDb.showKeys db)).length ≤
          ((max 1 p).toNat - 1) * (max 1 ps).toNat := by
      have hded : (OldDb.showKeys db).length ≤ db.shows.length := by
        have hsub := List.dedup_sublist
          (db.shows.map
            (fun r => (⟨r.id, r.title, r.path, r.sonarr_id⟩ : OldRowKey)))
        have := hsub.length_le
        simpa using this
      have hmul : nextTotalPages db ps * (max 1 ps).toNat ≤
          ((max 1 p).toNat - 1) * (max 1 ps).toNat := by
        refine Nat.mul_le_mul_right _ ?_
        omega
      rw [length_sortBy]
      omega
    refine ⟨?_, ?_, ?_, ?_⟩
    · simp only [NextDb.get_imported_shows]
      rw [hpage1, hpage2]
    · simp [NextDb.get_imported_shows]
    · simp only [OldDb.get_imported_shows_optimized]
      rw [Nat.add_sub_cancel, List.drop_eq_nil_of_le hdroplen]
      simp
    · simp [OldDb.get_imported_shows_optimized]

/-- C8 witness: the theorem applied to the 25-show sample catalog and,
for the beyond-last branch, to page 7 of size 10. -/
theorem pagination_bounds_witness :
    (catalog25.shows.length = 25 ∧
      (catalog25.shows.map
        (fun r => (⟨r.id, r.title, r.path, r.sonarr_id⟩ : OldRowKey))).Nodup ∧
      ((nextTotalPages catalog25 10 : Int) < 7)) ∧
    ((NextDb.get_imported_shows 1 10 catalog25).shows.length = 10 ∧
      (NextDb.get_imported_shows 1 10 catalog25).total = 25) ∧
    ((OldDb.get_imported_shows_optimized 1 10 catalog25).shows.length = 10 ∧
      (OldDb.get_imported_shows_optimized 1 10 catalog25).total = 25) ∧
    ((OldDb.get_imported_shows_optimized 7 10 catalog25).shows = [] ∧
      (OldDb.get_imported_shows_optimized 7 10 catalog25).total = 25) :=
  ⟨⟨by decide, by decide, by decide⟩,
   pagination_bounds.1 catalog25 (by decide),
   pagination_bounds.2.1 catalog25 (by decide) (by decide),
   (by decide : (25 : Nat) = catalog25.shows.length) ▸
     ⟨(pagination_bounds.2.2 catalog25 7 10 (by decide)).2.2.1,
      (pagination_bounds.2.2 catalog25 7 10 (by decide)).2.2.2⟩⟩

/-- Helper: the database returned by insert_season, spelled as the
conditional it reduces to. -/
theorem insert_season_snd (db : Db) (showId n : Nat) :
    (NextDb.insert_season db showId n).2 =
      if db.seasons.any (fun t => t.show_id == showId && t.season_number == n)
      then db
      else { db with
              seasons := db.seasons ++ [⟨db.seasonSeq + 1, showId, n⟩],
              seasonSeq := db.seasonSeq + 1 } :=
  rfl

/-- Helper: insert_season never touches the episodes table. -/
theorem insert_season_episodes (db : Db) (showId n : Nat) :
    (NextDb.insert_season db showId n).2.episodes = db.episodes := by
  rw [insert_season_snd]
  split <;> rfl

/-- Helper: insert_season never touches the episode sequence. -/
theorem insert_season_episodeSeq (db : Db) (showId n : Nat) :
    (NextDb.insert_season db showId n).2.episodeSeq = db.episodeSeq := by
  rw [insert_season_snd]
  split <;> rfl

/-- Helper: insert_season either leaves the season table unchanged
(when the key already exists) or appends exactly the fresh row (when no
stored season carries the key). -/
theorem insert_season_seasons_cases (db : Db) (showId n : Nat) :
    ((NextDb.insert_season db showId n).2.seasons = db.seasons ∧
      (NextDb.insert_season db showId n).2.seasonSeq = db.seasonSeq) ∨
    ((NextDb.insert_season db showId n).2.seasons =
        db.seasons ++ [⟨db.seasonSeq + 1, showId, n⟩] ∧
      (NextDb.insert_season db showId n).2.seasonSeq = db.seasonSeq + 1 ∧
      ∀ t ∈ db.seasons, ¬(t.show_id = showId ∧ t.season_number = n)) := by
  rw [insert_season_snd]
  by_cases hc : db.seasons.any
      (fun t => t.show_id == showId && t.season_number == n) = true
  · left
    rw [if_pos hc]
    exact ⟨rfl, rfl⟩
  · right
    rw [if_neg hc]
    refine ⟨rfl, rfl, ?_⟩
    intro t ht hcontra
    exact hc (List.any_eq_true.mpr ⟨t, ht, by simp [hcontra.1, hcontra.2]⟩)

/-- Helper: the id insert_season returns belongs to a stored season row
carrying exactly the requested (show_id, season_number) key. -/
theorem insert_season_fst (db : Db) (showId n : Nat) :
    ∃ s2 : SeasonRow,
      (NextDb.insert_season db showId n).1 = s2.id ∧
      s2 ∈ (NextDb.insert_season db showId n).2.seasons ∧
      s2.show_id = showId ∧ s2.season_number = n := by
  have hfstEq : (NextDb.insert_season db showId n).1 =
      match (NextDb.insert_season db showId n).2.seasons.find?
        (fun t => t.show_id == showId && t.season_number == n) with
      | some t => t.id
      | none => 0 := rfl
  cases hf : (NextDb.insert_season db showId n).2.seasons.find?
      (fun t => t.show_id == showId && t.season_number == n) with
  | some s2 =>
      have hpred := List.find?_some hf
      simp at hpred
      refine ⟨s2, ?_, List.mem_of_find?_eq_some hf, hpred.1, hpred.2⟩
      rw [hfstEq, hf]
  | none =>
      exfalso
      have hnone := List.find?_eq_none.mp hf
      rcases insert_season_seasons_cases db showId n with ⟨hse, _⟩ | ⟨hse, _, _⟩
      · by_cases hc : db.seasons.any
            (fun t => t.show_id == showId && t.season_number == n) = true
        · rcases List.any_eq_true.mp hc with ⟨t, ht, hpt⟩
          exact hnone t (hse ▸ ht) hpt
        · have : (NextDb.insert_season db showId n).2.seasons =
              db.seasons ++ [⟨db.seasonSeq + 1, showId, n⟩] := by
            rw [insert_season_snd, if_neg hc]
          rw [this] at hse
          have hlen := congrArg List.length hse
          simp at hlen
      · refine hnone ⟨db.seasonSeq + 1, showId, n⟩ ?_ (by simp)
        rw [hse]
        exact List.mem_append_right _ (List.mem_singleton.mpr rfl)

/-- Helper: the step run for one missing episode appends exactly one
episode row — provided nothing stored clashes with the episode — and
preserves the structural season invariants. -/
theorem importStep_spec (L : Nat) (db : Db) (ep : RemoteEpisode)
    (hseasonOk : SeasonIdsOk db) (hfk : EpisodesFkOk db)
    (hid : ∀ e ∈ db.episodes, e.sonarr_episode_id ≠ ep.id)
    (hkey : ∀ e ∈ db.episodes, ∀ s ∈ db.seasons, e.season_id = s.id →
        s.show_id = L → s.season_number = ep.seasonNumber →
        e.episode_number ≠ ep.episodeNumber) :
    ∃ row : EpisodeRow,
      (NextDb.importEpisodeStep L db ep).episodes = db.episodes ++ [row] ∧
      row.sonarr_episode_id = ep.id ∧
      row.episode_number = ep.episodeNumber ∧
      row.title = ep.title ∧
      (∃ s2 ∈ (NextDb.importEpisodeStep L db ep).seasons,
          s2.id = row.season_id ∧ s2.show_id = L ∧
          s2.season_number = ep.seasonNumber) ∧
      ((NextDb.importEpisodeStep L db ep).seasons = db.seasons ∨
        (NextDb.importEpisodeStep L db ep).seasons =
          db.seasons ++ [⟨db.seasonSeq + 1, L, ep.seasonNumber⟩]) ∧
      SeasonIdsOk (NextDb.importEpisodeStep L db ep) ∧
      EpisodesFkOk (NextDb.importEpisodeStep L db ep) := by
  obtain ⟨s2, hfst, hs2mem, hs2show, hs2num⟩ :=
    insert_season_fst db L ep.seasonNumber
  have hstep : NextDb.importEpisodeStep L db ep =
      (NextDb.insert_episode (NextDb.insert_season db L ep.seasonNumber).2
        (NextDb.insert_season db L ep.seasonNumber).1 ep).2 := rfl
  have hseas2 : (NextDb.importEpisodeStep L db ep).seasons =
      (NextDb.insert_season db L ep.seasonNumber).2.seasons := rfl
  have hseasSeq2 : (NextDb.importEpisodeStep L db ep).seasonSeq =
      (NextDb.insert_season db L ep.seasonNumber).2.seasonSeq := rfl
  have hep2 : (NextDb.importEpisodeStep L db ep).episodes =
      (NextDb.insert_season db L ep.seasonNumber).2.episodes.filter
        (fun e => !(NextDb.episodeConflict
          (NextDb.insert_season db L ep.seasonNumber).1 ep e)) ++
      [⟨(NextDb.insert_season db L ep.seasonNumber).2.episodeSeq + 1,
        (NextDb.insert_season db L ep.seasonNumber).1,
        ep.episodeNumber, ep.title, ep.id⟩] := rfl
  have hcases := insert_season_seasons_cases db L ep.seasonNumber
  have hkeepall :
      db.episodes.filter (fun e => !(NextDb.episodeConflict
        (NextDb.insert_season db L ep.seasonNumber).1 ep e)) = db.episodes := by
    rw [List.filter_eq_self]
    intro e he
    simp [NextDb.episodeConflict]
    refine ⟨hid e he, ?_⟩
    by_cases hseq : e.season_id = (NextDb.insert_season db L ep.seasonNumber).1
    case neg => exact Or.inl hseq
    refine Or.inr ?_
    rw [hfst] at hseq
    rcases hcases with ⟨hse, _⟩ | ⟨hse, _, _⟩
    · have hs2db : s2 ∈ db.seasons := by
        rw [hse] at hs2mem
        exact hs2mem
      exact hkey e he s2 hs2db (hseq) hs2show hs2num
    · have hs2db : s2 ∈ db.seasons ∨
          s2 = ⟨db.seasonSeq + 1, L, ep.seasonNumber⟩ := by
        rw [hse] at hs2mem
        rcases List.mem_append.mp hs2mem with h | h
        · exact Or.inl h
        · exact Or.inr (List.mem_singleton.mp h)
      rcases hs2db with h | h
      · exact hkey e he s2 h hseq hs2show hs2num
      · exfalso
        obtain ⟨s0, hs0mem, hs0id⟩ := hfk e he
        have hbound := hseasonOk.1 s0 hs0mem
        rw [hseq, h] at hs0id
        simp at hs0id
        omega
  refine ⟨⟨db.episodeSeq + 1, (NextDb.insert_season db L ep.seasonNumber).1,
      ep.episodeNumber, ep.title, ep.id⟩, ?_, rfl, rfl, rfl, ?_, ?_, ?_, ?_⟩
  · rw [hep2, insert_season_episodes, insert_season_episodeSeq, hkeepall]
  · exact ⟨s2, hs2mem, by rw [hfst], hs2show, hs2num⟩
  · rcases hcases with ⟨hse, _⟩ | ⟨hse, _, _⟩
    · left
      rw [hseas2, hse]
    · right
      rw [hseas2, hse]
  · constructor
    · intro t ht
      rw [hseas2] at ht
      rw [hseasSeq2]
      rcases hcases with ⟨hse, hsq⟩ | ⟨hse, hsq, _⟩
      · rw [hse] at ht
        rw [hsq]
        exact hseasonOk.1 t ht
      · rw [hse] at ht
        rw [hsq]
        rcases List.mem_append.mp ht with h | h
        · exact Nat.le_succ_of_le (hseasonOk.1 t h)
        · rw [List.mem_singleton.mp h]
    · rw [hseas2]
      rcases hcases with ⟨hse, _⟩ | ⟨hse, _, _⟩
      · rw [hse]
        exact hseasonOk.2
      · rw [hse]
        rw [List.map_append, List.nodup_append]
        refine ⟨hseasonOk.2, by simp, ?_⟩
        intro a ha
        simp only [List.map_cons, List.map_nil, List.mem_singleton]
        rcases List.mem_map.mp ha with ⟨t, ht, hta⟩
        have := hseasonOk.1 t ht
        omega
  · intro e he
    rw [hep2, insert_season_episodes, insert_season_episodeSeq, hkeepall] at he
    rcases List.mem_append.mp he with h | h
    · obtain ⟨s0, hs0mem, hs0id⟩ := hfk e h
      refine ⟨s0, ?_, hs0id⟩
      rw [hseas2]
      rcases hcases with ⟨hse, _⟩ | ⟨hse, _, _⟩
      · rw [hse]
        exact hs0mem
      · rw [hse]
        exact List.mem_append_left _ hs0mem
    · rw [List.mem_singleton.mp h]
      exact ⟨s2, hs2mem, by rw [hfst]⟩

/-- Helper: folding the import step over a clash-free batch of episodes
appends exactly one row per episode, in order, carrying the remote id,
episode number and title of that episode. -/
theorem importRun_spec (L : Nat) :
    ∀ (eps : List RemoteEpisode) (db : Db),
      SeasonIdsOk db → EpisodesFkOk db → NoClash L db eps → KeysNodup eps →
      ∃ newRows : List EpisodeRow,
        (eps.foldl (NextDb.importEpisodeStep L) db).episodes =
          db.episodes ++ newRows ∧
        newRows.map (fun e => (e.sonarr_episode_id, e.episode_number, e.title)) =
          eps.map (fun ep => (ep.id, ep.episodeNumber, ep.title)) := by
  intro eps
  induction eps with
  | nil =>
      intro db _ _ _ _
      exact ⟨[], by simp, by simp⟩
  | cons ep rest ih =>
      intro db hso hfk hnc hkn
      obtain ⟨row, hep, hrid, hrnum, hrtitle,
          ⟨s2, hs2mem, hs2id, hs2show, hs2num⟩, hseasCase, hso2, hfk2⟩ :=
        importStep_spec L db ep hso hfk
          (fun e he => hnc.1 ep (List.mem_cons_self _ _) e he)
          (fun e he s hs h1 h2 h3 =>
            hnc.2 ep (List.mem_cons_self _ _) e he s hs h1 h2 h3)
      have hids := hkn.1
      have hpairs := hkn.2
      simp only [List.map_cons] at hids hpairs
      have hidHead := (List.nodup_cons.mp hids).1
      have hidTail := (List.nodup_cons.mp hids).2
      have hpairHead := (List.nodup_cons.mp hpairs).1
      have hpairTail := (List.nodup_cons.mp hpairs).2
      have hknRest : KeysNodup rest := ⟨hidTail, hpairTail⟩
      have hncRest : NoClash L (NextDb.importEpisodeStep L db ep) rest := by
        constructor
        · intro epr hmem e he2
          rw [hep] at he2
          rcases List.mem_append.mp he2 with h | h
          · exact hnc.1 epr (List.mem_cons_of_mem _ hmem) e h
          · rw [List.mem_singleton.mp h, hrid]
            intro hcontra
            exact hidHead (hcontra ▸ List.mem_map_of_mem _ hmem)
        · intro epr hmem e he2 s hs h1 h2 h3
          rw [hep] at he2
          rcases List.mem_append.mp he2 with hEold | hEnew
          · rcases hseasCase with hse | hse
            · rw [hse] at hs
              exact hnc.2 epr (List.mem_cons_of_mem _ hmem) e hEold s hs h1 h2 h3
            · rw [hse] at hs
              rcases List.mem_append.mp hs with hsold | hsnew
              · exact hnc.2 epr (List.mem_cons_of_mem _ hmem) e hEold s hsold
                  h1 h2 h3
              · exfalso
                obtain ⟨s0, hs0mem, hs0id⟩ := hfk e hEold
                have hbound := hso.1 s0 hs0mem
                rw [List.mem_singleton.mp hsnew] at h1
                simp at h1
                omega
          · have heq := List.mem_singleton.mp hEnew
            subst heq
            have hseq : s = s2 :=
              List.inj_on_of_nodup_map hso2.2 hs hs2mem (by rw [← h1, hs2id])
            rw [hseq] at h3
            rw [hrnum]
            intro hcontra
            have hpair : (ep.seasonNumber, ep.episodeNumber) =
                (epr.seasonNumber, epr.episodeNumber) := by
              rw [← h3, hs2num, hcontra]
            exact hpairHead (hpair ▸ List.mem_map_of_mem _ hmem)
      obtain ⟨rows, hrun, hfields⟩ :=
        ih (NextDb.importEpisodeStep L db ep) hso2 hfk2 hncRest hknRest
      refine ⟨row :: rows, ?_, ?_⟩
      · rw [List.foldl_cons, hrun, hep]
        simp
      · simp [hfields, hrid, hrnum, hrtitle]

/-- C1 counterexample: against the cliparr-next schema the import can
delete an already-present episode row.  The stored show holds an
episode with remote id 10 in season 1 slot 1; the remote list reports a
single missing episode with the fresh remote id 99 in the same slot, and
the INSERT OR REPLACE issued for it removes the stored row, so not every
already-present episode row is left untouched. -/
theorem import_replaces_present_episode_row :
    ((⟨[⟨1, 100, "S", "", ""⟩], [⟨1, 1, 1⟩], [⟨1, 1, 1, "old", 10⟩],
        [], 1, 1, 1⟩ : Db).episodes.any
      (fun e => e.sonarr_episode_id == 10)) = true ∧
    (99 ∈ (missingEpisodes
      (⟨[⟨1, 100, "S", "", ""⟩], [⟨1, 1, 1⟩], [⟨1, 1, 1, "old", 10⟩],
        [], 1, 1, 1⟩ : Db) 1 [⟨99, 1, 1, "new"⟩]).map (fun ep => ep.id)) ∧
    ((NextDb.import_selected_show
        (⟨[⟨1, 100, "S", "", ""⟩], [⟨1, 1, 1⟩], [⟨1, 1, 1, "old", 10⟩],
          [], 1, 1, 1⟩ : Db)
        ⟨100, "S", "", ""⟩ [⟨99, 1, 1, "new"⟩]).episodes.any
      (fun e => e.sonarr_episode_id == 10)) = false := by
  decide

/-- C1 amended: for a requested show already stored locally whose
remote fetches succeed, provided the fetched batch is internally
consistent and no missing episode collides with a stored row on remote
id or on its (season number, episode number) slot, the import appends
exactly one row per missing remote episode — those whose remote id is
absent from the local set — and every already-present episode row is
left untouched; in particular local remote ids 1,2,3 against remote
2,3,4,5 insert exactly 4 and 5. -/
theorem import_inserts_exactly_missing :
    ∀ (db : Db) (rshow : RemoteShow) (episodes : List RemoteEpisode)
      (row : ShowRow),
      db.shows.find? (fun r => r.sonarr_id == rshow.id) = some row →
      SeasonIdsOk db → EpisodesFkOk db →
      NoClash row.id db (missingEpisodes db row.id episodes) →
      KeysNodup (missingEpisodes db row.id episodes) →
      ∃ newRows : List EpisodeRow,
        (NextDb.import_selected_show db rshow episodes).episodes =
          db.episodes ++ newRows ∧
        newRows.map (fun e => (e.sonarr_episode_id, e.episode_number, e.title)) =
          (missingEpisodes db row.id episodes).map
            (fun ep => (ep.id, ep.episodeNumber, ep.title)) := by
  intro db rshow episodes row hfind hso hfk hnc hkn
  have hunfold : NextDb.import_selected_show db rshow episodes =
      (missingEpisodes db row.id episodes).foldl
        (NextDb.importEpisodeStep row.id) db := by
    rw [NextDb.import_selected_show, hfind]
  rw [hunfold]
  exact importRun_spec row.id (missingEpisodes db row.id episodes) db
    hso hfk hnc hkn

/-- C1 witness: the amended theorem applied to the claimed instance — a
stored show whose episodes carry remote ids 1, 2 and 3 and a remote
episode list carrying ids 2, 3, 4 and 5. -/
theorem import_inserts_exactly_missing_witness :
    (catalog123.shows.find? (fun r => r.sonarr_id == 100) =
        some ⟨1, 100, "S", "", ""⟩ ∧
      SeasonIdsOk catalog123 ∧ EpisodesFkOk catalog123 ∧
      NoClash 1 catalog123 (missingEpisodes catalog123 1 remote2345) ∧
      KeysNodup (missingEpisodes catalog123 1 remote2345) ∧
      (missingEpisodes catalog123 1 remote2345).map (fun ep => ep.id) = [4, 5]) ∧
    (∃ newRows : List EpisodeRow,
        (NextDb.import_selected_show catalog123 ⟨100, "S", "", ""⟩
            remote2345).episodes =
          catalog123.episodes ++ newRows ∧
        newRows.map (fun e => (e.sonarr_episode_id, e.episode_number, e.title)) =
          (missingEpisodes catalog123 1 remote2345).map
            (fun ep => (ep.id, ep.episodeNumber, ep.title))) :=
  ⟨⟨by decide, by decide, by decide, by decide, by decide, by decide⟩,
   import_inserts_exactly_missing catalog123 ⟨100, "S", "", ""⟩ remote2345
     ⟨1, 100, "S", "", ""⟩ (by decide) (by decide) (by decide) (by decide)
     (by decide)⟩

end Cliparr
